import Mathlib

/-!
Shallow embedding of the nes-rs MOS 6502 CPU core (src/cpu_6502.rs and
src/cpu_bus.rs) and proofs about it.

Modelling conventions:
* Rust `u8`/`u16` values are `Nat`s; arithmetic that can overflow in Rust is
  taken modulo 2^8 / 2^16 (the wrapping semantics the emulator relies on,
  e.g. for backward branches).  The `i16` stack pointer is an `Int`.
* Array indexing out of bounds (a Rust panic) is modelled as `Option.none`;
  every operation that touches the bus therefore returns an `Option`.
* `Result<T, &str>` becomes `Except String T`.
-/

set_option maxRecDepth 40000

namespace Nes

/-- CPU state of the NES CPU (MOS 6502): accumulator, X and Y registers,
status register, program counter, stack pointer (signed 16-bit in the
source), additional clock cycles, and the accumulator-addressing switch. -/
structure MOS6502 where
  a : Nat
  x : Nat
  y : Nat
  s : Nat
  pc : Nat
  sp : Int
  clk : Nat
  acc_addr : Bool
deriving DecidableEq, Repr

/-- Status register flags with their bit masks (Rust enum discriminants). -/
inductive Flags where
  | Carry
  | Zero
  | Interrupt
  | Decimal
  | Break
  | Overflow
  | Negative
deriving DecidableEq, Repr

/-- Discriminant of the Rust `Flags` enum: the flag's bit mask. -/
def Flags.toNat : Flags → Nat
  | .Carry => 0x01
  | .Zero => 0x02
  | .Interrupt => 0x04
  | .Decimal => 0x08
  | .Break => 0x10
  | .Overflow => 0x40
  | .Negative => 0x80

/-- Bit position of each flag inside the status byte. -/
def flagBit : Flags → Nat
  | .Carry => 0
  | .Zero => 1
  | .Interrupt => 2
  | .Decimal => 3
  | .Break => 4
  | .Overflow => 6
  | .Negative => 7

/-- The initial CPU state built by `MOS6502::new`. -/
def MOS6502.new : MOS6502 :=
  { a := 0x00, x := 0x00, y := 0x00, s := 0x00, pc := 0x0000,
    sp := -1, clk := 0, acc_addr := false }

/-- The bus (src/cpu_bus.rs): a CPU plus a RAM array of length 0xFFFF
(not 0x10000), modelled as a list of bytes. -/
structure Bus where
  cpu : MOS6502
  ram : List Nat
deriving DecidableEq, Repr

/-- Bus created by `Bus::new`: fresh CPU and RAM of 0xFFFF zero bytes. -/
def Bus.new : Bus :=
  { cpu := MOS6502.new, ram := List.replicate 0xFFFF 0 }

/-- Bus read `self.ram[addr as usize]`; `none` models the out-of-bounds
panic. -/
def Bus.read (bus : Bus) (addr : Nat) : Option Nat :=
  bus.ram[addr]?

/-- Bus write `self.ram[addr as usize] = byte`; `none` models the
out-of-bounds panic. -/
def Bus.write (bus : Bus) (addr : Nat) (byte : Nat) : Option Bus :=
  if addr < bus.ram.length then some { bus with ram := bus.ram.set addr byte }
  else none

/-- Result returned by the addressing-mode functions: an effective address
and the page-crossed (extra cycle) flag. -/
structure AddrRes where
  addr : Nat
  cycle : Bool
deriving DecidableEq, Repr

/-- Construct an `AddrRes` (Rust `AddrRes::new`). -/
def AddrRes.new (addr : Nat) (cycle : Bool) : AddrRes :=
  { addr := addr, cycle := cycle }

/-- Set a flag in the status register (`MOS6502::set_flag`). -/
def set_flag (cpu : MOS6502) (flag : Flags) (val : Bool) : MOS6502 :=
  if val then { cpu with s := cpu.s ||| flag.toNat }
  else { cpu with s := cpu.s &&& (0xFF ^^^ flag.toNat) }

/-- Get the state of a flag from the status register (`MOS6502::get_flag`):
`self.s & (flag as u8) > 0`. -/
def get_flag (cpu : MOS6502) (flag : Flags) : Bool :=
  decide (cpu.s &&& flag.toNat > 0)

/-- Interpret an `i16` as a `u16` (Rust `as u16` cast, two's complement). -/
def u16ofInt (i : Int) : Nat :=
  (i % 65536).toNat

/-- Push a byte onto the stack (`MOS6502::stack_push`).  The source guards
with `self.sp < 0xFF`, pre-increments SP, then writes to
`self.sp as u16 + 0x100`; on the guard failing it returns
`Err("Stack Overflow Occurred.")`. -/
def stack_push (cpu : MOS6502) (byte : Nat) (bus : Bus) :
    Option (Except String (MOS6502 × Bus)) :=
  if cpu.sp < 0xFF then
    let cpu' := { cpu with sp := cpu.sp + 1 }
    match bus.write ((u16ofInt cpu'.sp + 0x100) % 65536) byte with
    | some bus' => some (Except.ok (cpu', bus'))
    | none => none
  else some (Except.error "Stack Overflow Occurred.")

/-- Pop a byte from the stack (`MOS6502::stack_pop`).  The source guards
with `self.sp > -1`, reads `self.sp as u16 + 0x100`, then decrements SP; on
the guard failing it returns `Err("Stack Underflow Occured.")`. -/
def stack_pop (cpu : MOS6502) (bus : Bus) :
    Option (Except String (MOS6502 × Nat)) :=
  if cpu.sp > -1 then
    match bus.read ((u16ofInt cpu.sp + 0x100) % 65536) with
    | some byte => some (Except.ok ({ cpu with sp := cpu.sp - 1 }, byte))
    | none => none
  else some (Except.error "Stack Underflow Occured.")

/-- Accumulator addressing (`MOS6502::addr_acc`). -/
def addr_acc (cpu : MOS6502) (_bus : Bus) : Option (AddrRes × MOS6502) :=
  let cpu := { cpu with acc_addr := true }
  some (AddrRes.new cpu.a false, cpu)

/-- Immediate addressing (`MOS6502::addr_immediate`): the byte right after
the opcode is the argument, so the decoder returns the current PC. -/
def addr_immediate (cpu : MOS6502) (_bus : Bus) : Option (AddrRes × MOS6502) :=
  let byte := cpu.pc
  let cpu := { cpu with pc := (cpu.pc + 1) % 65536 }
  some (AddrRes.new byte false, cpu)

/-- Relative addressing (`MOS6502::addr_relative`): reads the offset byte,
sign-extends it into 16 bits when bit 7 is set, and reports a page cross
when `(self.pc + byte) & 0xFF00 > self.pc & 0xFF00` (with PC already past
the operand). -/
def addr_relative (cpu : MOS6502) (bus : Bus) : Option (AddrRes × MOS6502) :=
  match bus.read cpu.pc with
  | none => none
  | some b =>
    let byte := b
    let cpu := { cpu with pc := (cpu.pc + 1) % 65536 }
    let byte := if byte &&& 0x80 > 1 then byte ||| 0xFF00 else byte
    some (AddrRes.new byte
      (decide ((cpu.pc + byte) % 65536 &&& 0xFF00 > cpu.pc &&& 0xFF00)), cpu)

/-- Zero-page addressing (`MOS6502::addr_zero_pg`). -/
def addr_zero_pg (cpu : MOS6502) (bus : Bus) : Option (AddrRes × MOS6502) :=
  match bus.read cpu.pc with
  | none => none
  | some addr =>
    some (AddrRes.new addr false, { cpu with pc := (cpu.pc + 1) % 65536 })

/-- Absolute addressing (`MOS6502::addr_absolute`): low byte first, then
high byte (little-endian). -/
def addr_absolute (cpu : MOS6502) (bus : Bus) : Option (AddrRes × MOS6502) :=
  match bus.read cpu.pc with
  | none => none
  | some byte_lo =>
    let cpu := { cpu with pc := (cpu.pc + 1) % 65536 }
    match bus.read cpu.pc with
    | none => none
    | some byte_hi =>
      let cpu := { cpu with pc := (cpu.pc + 1) % 65536 }
      some (AddrRes.new ((byte_hi <<< 8) ||| byte_lo) false, cpu)

/-- Indirect addressing (`MOS6502::addr_indirect`).  NOTE: the source binds
the FIRST operand byte to `addr_hi` and the SECOND to `addr_lo`, i.e. the
pointer is assembled big-endian; the page-wrap branch fires when the second
byte is 0xFF. -/
def addr_indirect (cpu : MOS6502) (bus : Bus) : Option (AddrRes × MOS6502) :=
  match bus.read cpu.pc with
  | none => none
  | some addr_hi =>
    let cpu := { cpu with pc := (cpu.pc + 1) % 65536 }
    match bus.read cpu.pc with
    | none => none
    | some addr_lo =>
      let cpu := { cpu with pc := (cpu.pc + 1) % 65536 }
      let addr := (addr_hi <<< 8) ||| addr_lo
      if addr_lo = 0x00FF then
        match bus.read (addr &&& 0xFF00), bus.read addr with
        | some hi, some lo => some (AddrRes.new ((hi <<< 8) ||| lo) false, cpu)
        | _, _ => none
      else
        match bus.read ((addr + 1) % 65536), bus.read addr with
        | some hi, some lo => some (AddrRes.new ((hi <<< 8) ||| lo) false, cpu)
        | _, _ => none

/-- X-indexed zero-page addressing (`MOS6502::addr_zero_pg_x`):
`bus.read(pc).wrapping_add(x)`. -/
def addr_zero_pg_x (cpu : MOS6502) (bus : Bus) : Option (AddrRes × MOS6502) :=
  match bus.read cpu.pc with
  | none => none
  | some b =>
    let addr := (b + cpu.x) % 256
    some (AddrRes.new addr false, { cpu with pc := (cpu.pc + 1) % 65536 })

/-- Y-indexed zero-page addressing (`MOS6502::addr_zero_pg_y`). -/
def addr_zero_pg_y (cpu : MOS6502) (bus : Bus) : Option (AddrRes × MOS6502) :=
  match bus.read cpu.pc with
  | none => none
  | some b =>
    let addr := (b + cpu.y) % 256
    some (AddrRes.new addr false, { cpu with pc := (cpu.pc + 1) % 65536 })

/-- X-indexed absolute addressing (`MOS6502::addr_absolute_x`): extra cycle
when `addr & 0xFF00 != byte_hi << 8`. -/
def addr_absolute_x (cpu : MOS6502) (bus : Bus) : Option (AddrRes × MOS6502) :=
  match bus.read cpu.pc with
  | none => none
  | some byte_lo =>
    let cpu := { cpu with pc := (cpu.pc + 1) % 65536 }
    match bus.read cpu.pc with
    | none => none
    | some byte_hi =>
      let cpu := { cpu with pc := (cpu.pc + 1) % 65536 }
      let addr := (((byte_hi <<< 8) ||| byte_lo) + cpu.x) % 65536
      let cycle := decide (addr &&& 0xFF00 ≠ byte_hi <<< 8)
      some (AddrRes.new addr cycle, cpu)

/-- Y-indexed absolute addressing (`MOS6502::addr_absolute_y`). -/
def addr_absolute_y (cpu : MOS6502) (bus : Bus) : Option (AddrRes × MOS6502) :=
  match bus.read cpu.pc with
  | none => none
  | some byte_lo =>
    let cpu := { cpu with pc := (cpu.pc + 1) % 65536 }
    match bus.read cpu.pc with
    | none => none
    | some byte_hi =>
      let cpu := { cpu with pc := (cpu.pc + 1) % 65536 }
      let addr := (((byte_hi <<< 8) ||| byte_lo) + cpu.y) % 65536
      let cycle := decide (addr &&& 0xFF00 ≠ byte_hi <<< 8)
      some (AddrRes.new addr cycle, cpu)

/-- Indexed indirect addressing, (Indirect,X)
(`MOS6502::addr_idx_indirect`): the zero-page pointer address is
`bus.read(pc).wrapping_add(x)` but the high pointer byte is read from
`byte + 1` without wrapping back into the zero page. -/
def addr_idx_indirect (cpu : MOS6502) (bus : Bus) : Option (AddrRes × MOS6502) :=
  match bus.read cpu.pc with
  | none => none
  | some b =>
    let byte := (b + cpu.x) % 256
    let cpu := { cpu with pc := (cpu.pc + 1) % 65536 }
    match bus.read byte, bus.read ((byte + 1) % 65536) with
    | some byte_lo, some byte_hi =>
      some (AddrRes.new ((byte_hi <<< 8) ||| byte_lo) false, cpu)
    | _, _ => none

/-- Indirect indexed addressing, (Indirect),Y
(`MOS6502::addr_indirect_idx`).  NOTE: the source computes a `cycle` value
(comparing against `byte_lo << 8`) but then returns `false` as the
page-crossed flag, so the computed value is discarded. -/
def addr_indirect_idx (cpu : MOS6502) (bus : Bus) : Option (AddrRes × MOS6502) :=
  match bus.read cpu.pc with
  | none => none
  | some b =>
    let byte := b
    let cpu := { cpu with pc := (cpu.pc + 1) % 65536 }
    match bus.read byte, bus.read ((byte + 1) % 65536) with
    | some byte_lo, some byte_hi =>
      let addr := (((byte_hi <<< 8) ||| byte_lo) + cpu.y) % 65536
      let _cycle := decide (addr &&& 0xFF00 ≠ byte_lo <<< 8)
      some (AddrRes.new addr false, cpu)
    | _, _ => none

/-- Type of addressing-mode decoders as consumed by the opcode handlers. -/
def AddrMode : Type :=
  MOS6502 → Bus → Option (AddrRes × MOS6502)

/-- ADC - Add with Carry (`MOS6502::opcode_adc`): fetch the operand via the
addressing mode, compute `res = A + M + C` in 16 bits, set C from
`res > 255`, Z from `res & 0x00FF == 0`, V from
`(!(A ^ M) & (A ^ res)) & 0x80 > 1`, N from `res & 0x80 > 1`, store the low
byte into A, and return the extra-cycle count from the addressing result. -/
def opcode_adc (cpu : MOS6502) (bus : Bus) (addr_mode : AddrMode) :
    Option (Nat × MOS6502) :=
  match addr_mode cpu bus with
  | none => none
  | some (addr_res, cpu) =>
    match bus.read addr_res.addr with
    | none => none
    | some byte =>
      let res := cpu.a + byte + (get_flag cpu Flags.Carry).toNat
      let cpu := set_flag cpu Flags.Carry (decide (res > 255))
      let cpu := set_flag cpu Flags.Zero (decide (res &&& 0x00FF = 0))
      let overflow :=
        decide ((((cpu.a ^^^ byte) ^^^ 0xFFFF) &&& (cpu.a ^^^ res)) &&& 0x80 > 1)
      let cpu := set_flag cpu Flags.Overflow overflow
      let cpu := set_flag cpu Flags.Negative (decide (res &&& 0x80 > 1))
      let cpu := { cpu with a := res &&& 0x00FF }
      some (if addr_res.cycle then 1 else 0, cpu)

/-- BIT - Bit Test (`MOS6502::opcode_bit`): sets Z from `A & M == 0`,
N from `M & 0x80 == 0` and V from `M & 0x40 == 0` (note the source compares
the masked bits with zero). -/
def opcode_bit (cpu : MOS6502) (bus : Bus) (addr_mode : AddrMode) :
    Option (Nat × MOS6502) :=
  match addr_mode cpu bus with
  | none => none
  | some (addr_res, cpu) =>
    match bus.read addr_res.addr with
    | none => none
    | some byte =>
      let cpu := set_flag cpu Flags.Zero (decide (cpu.a &&& byte = 0))
      let cpu := set_flag cpu Flags.Negative (decide (byte &&& 0x80 = 0))
      let cpu := set_flag cpu Flags.Overflow (decide (byte &&& 0x40 = 0))
      some (0, cpu)

/-- BCC - Branch if Carry Clear (`MOS6502::opcode_bcc`): returns 0 when the
carry flag is set; otherwise adds the relative displacement to PC, returns
1, plus 1 more when the new PC is on a different page than the old PC. -/
def opcode_bcc (cpu : MOS6502) (bus : Bus) (addr_mode : AddrMode) :
    Option (Nat × MOS6502) :=
  match addr_mode cpu bus with
  | none => none
  | some (addr_res, cpu) =>
    if get_flag cpu Flags.Carry then some (0, cpu)
    else
      let old_pc := cpu.pc
      let cpu := { cpu with pc := (cpu.pc + addr_res.addr) % 65536 }
      let additional_cycles := 1
      let additional_cycles :=
        if cpu.pc &&& 0xFF00 ≠ old_pc &&& 0xFF00 then additional_cycles + 1
        else additional_cycles
      some (additional_cycles, cpu)

/-- BCS - Branch if Carry Set (`MOS6502::opcode_bcs`). -/
def opcode_bcs (cpu : MOS6502) (bus : Bus) (addr_mode : AddrMode) :
    Option (Nat × MOS6502) :=
  match addr_mode cpu bus with
  | none => none
  | some (addr_res, cpu) =>
    if !get_flag cpu Flags.Carry then some (0, cpu)
    else
      let old_pc := cpu.pc
      let cpu := { cpu with pc := (cpu.pc + addr_res.addr) % 65536 }
      let additional_cycles := 1
      let additional_cycles :=
        if cpu.pc &&& 0xFF00 ≠ old_pc &&& 0xFF00 then additional_cycles + 1
        else additional_cycles
      some (additional_cycles, cpu)

/-- BEQ - Branch if Equal (`MOS6502::opcode_beq`). -/
def opcode_beq (cpu : MOS6502) (bus : Bus) (addr_mode : AddrMode) :
    Option (Nat × MOS6502) :=
  match addr_mode cpu bus with
  | none => none
  | some (addr_res, cpu) =>
    if !get_flag cpu Flags.Zero then some (0, cpu)
    else
      let old_pc := cpu.pc
      let cpu := { cpu with pc := (cpu.pc + addr_res.addr) % 65536 }
      let additional_cycles :=
        if cpu.pc &&& 0xFF00 ≠ old_pc &&& 0xFF00 then 2 else 1
      some (additional_cycles, cpu)

/-- BMI - Branch if Minus (`MOS6502::opcode_bmi`): on a taken branch it
returns 2 or 1 according to the `cycle` flag computed by the addressing
mode (not by comparing the old and new PC pages). -/
def opcode_bmi (cpu : MOS6502) (bus : Bus) (addr_mode : AddrMode) :
    Option (Nat × MOS6502) :=
  match addr_mode cpu bus with
  | none => none
  | some (byte, cpu) =>
    if get_flag cpu Flags.Negative then
      let cpu := { cpu with pc := (cpu.pc + byte.addr) % 65536 }
      some (if byte.cycle then 2 else 1, cpu)
    else some (0, cpu)

/-- BNE - Branch if Not Equal (`MOS6502::opcode_bne`): on a taken branch it
returns 2 or 1 according to the `cycle` flag computed by the addressing
mode (not by comparing the old and new PC pages). -/
def opcode_bne (cpu : MOS6502) (bus : Bus) (addr_mode : AddrMode) :
    Option (Nat × MOS6502) :=
  match addr_mode cpu bus with
  | none => none
  | some (addr_res, cpu) =>
    if !get_flag cpu Flags.Zero then
      let cpu := { cpu with pc := (cpu.pc + addr_res.addr) % 65536 }
      some (if addr_res.cycle then 2 else 1, cpu)
    else some (0, cpu)

/-! Helper lemmas about the status register and bit arithmetic. -/

theorem Flags.toNat_eq_two_pow (f : Flags) : f.toNat = 2 ^ flagBit f := by
  cases f <;> rfl

theorem flagBit_lt (f : Flags) : flagBit f < 8 := by
  cases f <;> decide

theorem testBit_255 {j : Nat} (hj : j < 8) : Nat.testBit 0xFF j = true := by
  have h : ∀ j, j < 8 → Nat.testBit 0xFF j = true := by decide
  exact h j hj

theorem decide_and_two_pow_pos (s k : Nat) :
    decide (s &&& 2 ^ k > 0) = s.testBit k := by
  rw [Nat.and_two_pow]
  cases h : s.testBit k <;>
    simp [h, Nat.pos_pow_of_pos, Nat.pow_pos]

theorem get_flag_testBit (cpu : MOS6502) (f : Flags) :
    get_flag cpu f = cpu.s.testBit (flagBit f) := by
  rw [get_flag, Flags.toNat_eq_two_pow, decide_and_two_pow_pos]

theorem set_flag_s_testBit (s k j : Nat) (v : Bool) (hj : j < 8) :
    (if v then s ||| 2 ^ k else s &&& (0xFF ^^^ 2 ^ k)).testBit j
      = if k = j then v else s.testBit j := by
  have h255 := testBit_255 hj
  cases v <;> by_cases h : k = j <;>
    simp [Nat.testBit_or, Nat.testBit_and, Nat.testBit_xor, Nat.testBit_two_pow,
      h, h255]

theorem get_flag_set_flag (cpu : MOS6502) (f g : Flags) (v : Bool) :
    get_flag (set_flag cpu f v) g
      = if flagBit f = flagBit g then v else get_flag cpu g := by
  rw [get_flag_testBit, get_flag_testBit]
  have : (set_flag cpu f v).s
      = if v then cpu.s ||| 2 ^ flagBit f
        else cpu.s &&& (0xFF ^^^ 2 ^ flagBit f) := by
    rw [set_flag, Flags.toNat_eq_two_pow]
    cases v <;> simp
  rw [this, set_flag_s_testBit cpu.s (flagBit f) (flagBit g) v (flagBit_lt g)]

theorem set_flag_a (cpu : MOS6502) (f : Flags) (v : Bool) :
    (set_flag cpu f v).a = cpu.a := by
  rw [set_flag]; cases v <;> simp

theorem set_flag_pc (cpu : MOS6502) (f : Flags) (v : Bool) :
    (set_flag cpu f v).pc = cpu.pc := by
  rw [set_flag]; cases v <;> simp

theorem and_255_eq_mod (x : Nat) : x &&& 0x00FF = x % 256 := by
  have h := Nat.and_pow_two_sub_one_eq_mod x 8
  norm_num at h
  exact h

theorem and_128_gt_one_iff (x : Nat) :
    1 < x &&& 0x80 ↔ x.testBit 7 = true := by
  have h : x &&& 0x80 = (x.testBit 7).toNat * 2 ^ 7 := Nat.and_two_pow x 7
  rw [h]
  cases hb : x.testBit 7 <;> simp

theorem and_128_ne_zero_iff (x : Nat) :
    x &&& 0x80 ≠ 0 ↔ x.testBit 7 = true := by
  have h : x &&& 0x80 = (x.testBit 7).toNat * 2 ^ 7 := Nat.and_two_pow x 7
  rw [h]
  cases hb : x.testBit 7 <;> simp

/-- The overflow bit the source computes, `(!(A ^ M) & (A ^ res)) & 0x80 > 1`
with the complement taken in 16 bits, agrees with the canonical signed
overflow formula `(A ^ res) & (M ^ res) & 0x80 != 0`. -/
theorem overflow_formula (a m res : Nat) :
    1 < ((a ^^^ m) ^^^ 0xFFFF) &&& (a ^^^ res) &&& 0x80
      ↔ (a ^^^ res) &&& (m ^^^ res) &&& 0x80 ≠ 0 := by
  rw [and_128_gt_one_iff, and_128_ne_zero_iff]
  simp only [Nat.testBit_and, Nat.testBit_xor]
  have hf : Nat.testBit 0xFFFF 7 = true := by decide
  rw [hf]
  cases a.testBit 7 <;> cases m.testBit 7 <;> cases res.testBit 7 <;> decide

/-! Concrete machines used to evaluate the code on specific inputs. -/

/-- RAM image for the Indirect-mode evaluation: operand bytes $02 $01 at
PC = 0; the little-endian pointer would be $0102 (pointing at $AB/$CD), the
big-endian pointer is $0201 (pointing at $34/$12). -/
def indBus : Bus :=
  { cpu := MOS6502.new,
    ram := ((((((List.replicate 0x300 0).set 0 0x02).set 1 0x01).set
      0x201 0x34).set 0x202 0x12).set 0x102 0xAB).set 0x103 0xCD }

/-- CPU about to execute a BNE whose offset byte sits at $0200 and is $80
(−128): the branch target $0181 is on a lower page than $0201. -/
def bneCpu : MOS6502 := { MOS6502.new with pc := 0x200 }

/-- RAM image for the branch evaluation: offset byte $80 at $0200. -/
def bneBus : Bus :=
  { cpu := MOS6502.new, ram := (List.replicate 0x201 0).set 0x200 0x80 }

/-- CPU for the ADC scenario from the spec: A = $50, P = $00. -/
def adcCpu : MOS6502 := { MOS6502.new with a := 0x50 }

/-- ROM for the ADC scenario: the immediate operand $50 at PC = 0. -/
def adcBus : Bus := { cpu := MOS6502.new, ram := [0x50] }

/-- CPU for the (Indirect),Y evaluation: Y = 1. -/
def indIdxCpu : MOS6502 := { MOS6502.new with y := 1 }

/-- RAM for the (Indirect),Y evaluation: operand $10, zero-page pointer
$00FF at $10/$11, so adding Y = 1 crosses into page $01. -/
def indIdxBus : Bus :=
  { cpu := MOS6502.new, ram := ((List.replicate 0x12 0).set 0 0x10).set 0x10 0xFF }

/-- RAM for the (Indirect,X) evaluation with X = 0: operand $FF, so the
pointer bytes per the claim live at $FF and $00 (wrapped), but the code
reads the high byte from $0100 ($12) instead of $0000 ($FF). -/
def idxIndBus : Bus :=
  { cpu := MOS6502.new,
    ram := (((List.replicate 0x101 0).set 0 0xFF).set 0xFF 0x34).set 0x100 0x12 }

/-- CPU for the BIT evaluation: A = $FF. -/
def bitCpu : MOS6502 := { MOS6502.new with a := 0xFF }

/-- RAM for the BIT evaluation: zero-page operand $10, M = mem[$10] = $80
(bit 7 set). -/
def bitBus : Bus :=
  { cpu := MOS6502.new, ram := ((List.replicate 0x11 0).set 0 0x10).set 0x10 0x80 }

/-- CPU whose stack pointer sits at the overflow guard of `stack_push`. -/
def fullStackCpu : MOS6502 := { MOS6502.new with sp := 0xFF }

/-- CPU with SP = 0 (one byte on the ascending stack). -/
def spZeroCpu : MOS6502 := { MOS6502.new with sp := 0 }

/-- Bus whose RAM covers exactly the zero page and the stack page. -/
def stackBus : Bus := { cpu := MOS6502.new, ram := List.replicate 0x200 0 }

/-- Empty-RAM bus (the stack guard failures never touch the RAM). -/
def emptyBus : Bus := { cpu := MOS6502.new, ram := [] }

/-! Claim C1: Indirect addressing endianness and page-wrap bug. -/

/-- C1: evaluating the Indirect decoder on operand bytes $02 $01 shows the
code assembles the pointer big-endian: it returns effective address $1234,
read through pointer $0201 (first operand byte used as the HIGH byte),
whereas the claimed little-endian pointer $0102 holds $CDAB.  The claim's
"first byte is the pointer's low byte" is violated. -/
theorem addr_indirect_endianness_eval :
    addr_indirect MOS6502.new indBus
        = some (AddrRes.new 0x1234 false, { MOS6502.new with pc := 2 })
      ∧ indBus.read 0x102 = some 0xAB ∧ indBus.read 0x103 = some 0xCD
      ∧ (0x1234 : Nat) ≠ 0xCDAB := by
  refine ⟨by rfl, by rfl, by rfl, by decide⟩

/-! Claim C3: branch extra-cycle counts. -/

/-- C3: a taken BNE with offset $80 at $0200 branches backward from $0201
to $0181, crossing a page, yet the code returns only 1 extra cycle (the
claim demands 2): the relative decoder's page-cross test uses `>` and so
misses backward crossings, and BNE (like BMI) trusts that flag instead of
comparing the old and new PC pages as BCC/BCS/BEQ do. -/
theorem opcode_bne_backward_page_cross_eval :
    opcode_bne bneCpu bneBus addr_relative
        = some (1, { bneCpu with pc := 0x181 })
      ∧ (0x181 : Nat) &&& 0xFF00 ≠ (0x201 : Nat) &&& 0xFF00 := by
  refine ⟨by rfl, by decide⟩

/-! Claim C6: (Indirect),Y page-crossed flag. -/

/-- C6: with operand $10, zero-page pointer $00FF and Y = 1 the effective
address is $0100 — the high byte changed from $00 to $01 — yet the decoder
returns `cycle = false`: the computed page-cross value is discarded and the
function always reports `false`. -/
theorem addr_indirect_idx_page_cross_eval :
    addr_indirect_idx indIdxCpu indIdxBus
        = some (AddrRes.new 0x100 false, { indIdxCpu with pc := 1 })
      ∧ (0x100 : Nat) &&& 0xFF00 ≠ (0x00FF : Nat) &&& 0xFF00 := by
  refine ⟨by rfl, by decide⟩

/-! Claim C7: (Indirect,X) zero-page wrap. -/

/-- C7: with operand $FF and X = 0 the code reads the pointer's high byte
from $0100 (value $12), not from the zero-page-wrapped address $0000
(value $FF): it returns $1234 where the claim requires $FF34. -/
theorem addr_idx_indirect_no_zp_wrap_eval :
    addr_idx_indirect MOS6502.new idxIndBus
        = some (AddrRes.new 0x1234 false, { MOS6502.new with pc := 1 })
      ∧ idxIndBus.read 0x00 = some 0xFF
      ∧ (0x1234 : Nat) ≠ 0xFF34 := by
  refine ⟨by rfl, by rfl, by decide⟩

/-! Claim C9: BIT flag polarity. -/

/-- C9: executing BIT with A = $FF against M = $80 (bit 7 set) leaves the
Negative flag CLEAR (final status byte $40), because the source sets N from
`byte & 0x80 == 0` — the inverted polarity; the claim (and the source's own
doc comment `N = M7`) requires N set. -/
theorem opcode_bit_negative_eval :
    opcode_bit bitCpu bitBus addr_zero_pg
        = some (0, { bitCpu with pc := 1, s := 0x40 })
      ∧ get_flag { bitCpu with pc := 1, s := 0x40 } Flags.Negative = false
      ∧ Nat.testBit 0x80 7 = true := by
  refine ⟨by rfl, by rfl, by decide⟩

/-! Shared lemmas describing the successful stack paths. -/

/-- Successful push: with SP in −1..$FE and RAM covering the stack page,
`stack_push` pre-increments SP and writes the byte to $0100 + SP. -/
theorem stack_push_eq (cpu : MOS6502) (bus : Bus) (b : Nat)
    (h1 : -1 ≤ cpu.sp) (h2 : cpu.sp < 0xFF) (h3 : 0x200 ≤ bus.ram.length) :
    stack_push cpu b bus
      = some (Except.ok ({ cpu with sp := cpu.sp + 1 },
          { bus with ram := bus.ram.set ((cpu.sp + 1).toNat + 0x100) b })) := by
  have haddr : (u16ofInt (cpu.sp + 1) + 0x100) % 65536
      = (cpu.sp + 1).toNat + 0x100 := by
    rw [u16ofInt, Int.emod_eq_of_lt (by omega) (by omega)]
    omega
  simp only [stack_push, if_pos h2, haddr]
  rw [Bus.write, if_pos (by omega)]

/-- Successful pop: with SP in 0..$FF, `stack_pop` reads $0100 + SP and
post-decrements SP (RAM coverage decides whether the read succeeds). -/
theorem stack_pop_eq (cpu : MOS6502) (bus : Bus)
    (h0 : 0 ≤ cpu.sp) (h1 : cpu.sp ≤ 0xFF) :
    stack_pop cpu bus
      = (bus.read (cpu.sp.toNat + 0x100)).map
          (fun byte => Except.ok ({ cpu with sp := cpu.sp - 1 }, byte)) := by
  have haddr : (u16ofInt cpu.sp + 0x100) % 65536 = cpu.sp.toNat + 0x100 := by
    rw [u16ofInt, Int.emod_eq_of_lt (by omega) (by omega)]
    omega
  simp only [stack_pop, if_pos (by omega : cpu.sp > -1), haddr]
  cases hr : bus.read (cpu.sp.toNat + 0x100) <;> simp [hr]

/-! Claim C2: the error channel on stack over/underflow. -/

/-- C2 counterexample: at SP = $FF a push does not wrap — it reports
"Stack Overflow Occurred." — and at the initial SP = −1 a pull reports
"Stack Underflow Occured."; both operations return `Result` values, so an
error channel exists and is exercised. -/
theorem stack_wrap_counterexample :
    stack_push fullStackCpu 0xAB emptyBus
        = some (Except.error "Stack Overflow Occurred.")
      ∧ stack_pop MOS6502.new emptyBus
        = some (Except.error "Stack Underflow Occured.") :=
  ⟨rfl, rfl⟩

/-- C2 amended: a push reports an error exactly when SP ≥ $FF and a pull
reports an error exactly when SP ≤ −1; the stack pointer is never wrapped
modulo 256. -/
theorem stack_error_iff (cpu : MOS6502) (b : Nat) (bus : Bus) :
    ((∃ e, stack_push cpu b bus = some (Except.error e)) ↔ 0xFF ≤ cpu.sp)
      ∧ ((∃ e, stack_pop cpu bus = some (Except.error e)) ↔ cpu.sp ≤ -1) := by
  constructor
  · constructor
    · rintro ⟨e, he⟩
      by_contra hsp
      rw [stack_push, if_pos (by omega)] at he
      set addr := (u16ofInt (cpu.sp + 1) + 0x100) % 65536 with haddr
      cases hw : bus.write addr b <;> simp only [hw] at he <;> simp at he
    · intro h
      rw [stack_push, if_neg (by omega)]
      exact ⟨_, rfl⟩
  · constructor
    · rintro ⟨e, he⟩
      by_contra hsp
      rw [stack_pop, if_pos (by omega)] at he
      cases hr : bus.read ((u16ofInt cpu.sp + 0x100) % 65536) <;>
        simp only [hr] at he <;> simp at he
    · intro h
      rw [stack_pop, if_neg (by omega)]
      exact ⟨_, rfl⟩

/-- C2 amended, witness at SP = $FF (push) and SP = −1 (pull). -/
theorem stack_error_iff_witness :
    ((∃ e, stack_push fullStackCpu 0xAB emptyBus = some (Except.error e))
        ↔ 0xFF ≤ fullStackCpu.sp)
      ∧ ((∃ e, stack_pop MOS6502.new emptyBus = some (Except.error e))
        ↔ MOS6502.new.sp ≤ -1) :=
  ⟨(stack_error_iff fullStackCpu 0xAB emptyBus).1,
   (stack_error_iff MOS6502.new 0xAB emptyBus).2⟩

/-! Claim C8: stack push/pull discipline. -/

/-- C8 counterexample: at SP = 0, pushing $AB stores it at $0101 — not at
$0100 + SP = $0100, which stays 0 — and leaves SP = 1, not
SP − 1 mod 256 = 255: the stack ascends with a pre-incremented pointer. -/
theorem stack_push_ascending_counterexample :
    stack_push spZeroCpu 0xAB stackBus
        = some (Except.ok ({ spZeroCpu with sp := 1 },
            { stackBus with ram := stackBus.ram.set 0x101 0xAB }))
      ∧ Bus.read { stackBus with ram := stackBus.ram.set 0x101 0xAB } 0x100
          = some 0
      ∧ Bus.read { stackBus with ram := stackBus.ram.set 0x101 0xAB } 0x101
          = some 0xAB
      ∧ (1 : Int) ≠ 255 := by
  refine ⟨by rfl, by rfl, by rfl, by decide⟩

/-- C8 amended: `stack_push` first sets SP := SP + 1 and then writes b to
$0100 + SP (stack ascending from the initial SP = −1), with an error
instead of a wrap at SP ≥ $FF; `stack_pop` first reads $0100 + SP and then
sets SP := SP − 1, with an error at SP ≤ −1. -/
theorem stack_push_pop_behavior (cpu : MOS6502) (bus : Bus) (b : Nat)
    (h1 : -1 ≤ cpu.sp) (h2 : cpu.sp < 0xFF) (h3 : 0x200 ≤ bus.ram.length) :
    stack_push cpu b bus
        = some (Except.ok ({ cpu with sp := cpu.sp + 1 },
            { bus with ram := bus.ram.set ((cpu.sp + 1).toNat + 0x100) b }))
      ∧ (0 ≤ cpu.sp →
          stack_pop cpu bus
            = (bus.read (cpu.sp.toNat + 0x100)).map
                (fun byte => Except.ok ({ cpu with sp := cpu.sp - 1 }, byte))) :=
  ⟨stack_push_eq cpu bus b h1 h2 h3,
   fun h0 => stack_pop_eq cpu bus h0 (by omega)⟩

/-- C8 amended, witness at SP = 0 with RAM covering the stack page. -/
theorem stack_push_pop_behavior_witness :
    stack_push spZeroCpu 0xAB stackBus
        = some (Except.ok ({ spZeroCpu with sp := spZeroCpu.sp + 1 },
            { stackBus with
                ram := stackBus.ram.set ((spZeroCpu.sp + 1).toNat + 0x100) 0xAB }))
      ∧ (0 ≤ spZeroCpu.sp →
          stack_pop spZeroCpu stackBus
            = (stackBus.read (spZeroCpu.sp.toNat + 0x100)).map
                (fun byte =>
                  Except.ok ({ spZeroCpu with sp := spZeroCpu.sp - 1 }, byte))) :=
  stack_push_pop_behavior spZeroCpu stackBus 0xAB (by decide) (by decide)
    (by decide)

/-! Claim C10: push-then-pull round trip. -/

/-- C10: from any state whose stack pointer admits one more push
(−1 ≤ SP < $FF) and a bus whose RAM covers the stack page, pushing b and
immediately pulling returns b and restores SP, A, X, Y and PC. -/
theorem push_pop_roundtrip (cpu : MOS6502) (bus : Bus) (b : Nat)
    (h1 : -1 ≤ cpu.sp) (h2 : cpu.sp < 0xFF) (h3 : 0x200 ≤ bus.ram.length) :
    ∃ cpu1 bus1, stack_push cpu b bus = some (Except.ok (cpu1, bus1))
      ∧ ∃ cpu2, stack_pop cpu1 bus1 = some (Except.ok (cpu2, b))
        ∧ cpu2.sp = cpu.sp ∧ cpu2.a = cpu.a ∧ cpu2.x = cpu.x
        ∧ cpu2.y = cpu.y ∧ cpu2.pc = cpu.pc := by
  refine ⟨_, _, stack_push_eq cpu bus b h1 h2 h3, ?_⟩
  have hpop := stack_pop_eq { cpu with sp := cpu.sp + 1 }
    { bus with ram := bus.ram.set ((cpu.sp + 1).toNat + 0x100) b }
    (by simp; omega) (by simp; omega)
  have hread : Bus.read
      { bus with ram := bus.ram.set ((cpu.sp + 1).toNat + 0x100) b }
      (({ cpu with sp := cpu.sp + 1 } : MOS6502).sp.toNat + 0x100)
        = some b := by
    show (bus.ram.set ((cpu.sp + 1).toNat + 0x100) b)[(cpu.sp + 1).toNat + 0x100]?
        = some b
    rw [List.getElem?_set_self (by omega)]
  rw [hread] at hpop
  refine ⟨_, hpop, by simp, rfl, rfl, rfl, rfl⟩

/-- C10 witness: push then pull of $5A from the reset state (SP = −1). -/
theorem push_pop_roundtrip_witness :
    ∃ cpu1 bus1,
      stack_push MOS6502.new 0x5A stackBus = some (Except.ok (cpu1, bus1))
      ∧ ∃ cpu2, stack_pop cpu1 bus1 = some (Except.ok (cpu2, 0x5A))
        ∧ cpu2.sp = MOS6502.new.sp ∧ cpu2.a = MOS6502.new.a
        ∧ cpu2.x = MOS6502.new.x ∧ cpu2.y = MOS6502.new.y
        ∧ cpu2.pc = MOS6502.new.pc :=
  push_pop_roundtrip MOS6502.new stackBus 0x5A (by decide) (by decide)
    (by decide)

/-! Claim C4: ADC semantics. -/

theorem get_flag_set_a (cpu : MOS6502) (v : Nat) (f : Flags) :
    get_flag { cpu with a := v } f = get_flag cpu f := rfl

theorem testBit7_mod_256 (x : Nat) : (x % 256).testBit 7 = x.testBit 7 := by
  have h : (256 : Nat) = 2 ^ 8 := by norm_num
  rw [h, Nat.testBit_mod_two_pow]
  simp

/-- C4: for any addressing mode that yields address `ar.addr` and state
`cpu1`, and memory byte `m` at that address, ADC stores the low 8 bits of
`res = A + M + C` into A, sets C iff the 16-bit sum exceeds $FF, Z iff the
low 8 bits are zero, N iff bit 7 of the stored result is set, and V iff
`(A ^ res) & (M ^ res) & 0x80` is nonzero. -/
theorem adc_spec (cpu : MOS6502) (bus : Bus) (mode : AddrMode)
    (ar : AddrRes) (cpu1 : MOS6502) (m c0 res : Nat)
    (hmode : mode cpu bus = some (ar, cpu1))
    (hread : bus.read ar.addr = some m)
    (hc : c0 = (get_flag cpu1 Flags.Carry).toNat)
    (hres : res = cpu1.a + m + c0) :
    ∃ extra cpu2, opcode_adc cpu bus mode = some (extra, cpu2)
      ∧ cpu2.a = res % 256
      ∧ (get_flag cpu2 Flags.Carry = true ↔ 255 < res)
      ∧ (get_flag cpu2 Flags.Zero = true ↔ res % 256 = 0)
      ∧ (get_flag cpu2 Flags.Negative = true ↔ (res % 256).testBit 7 = true)
      ∧ (get_flag cpu2 Flags.Overflow = true
          ↔ (cpu1.a ^^^ res) &&& (m ^^^ res) &&& 0x80 ≠ 0) := by
  subst hres
  subst hc
  simp only [opcode_adc, hmode, hread, set_flag_a]
  refine ⟨_, _, rfl, ?_, ?_, ?_, ?_, ?_⟩
  · exact and_255_eq_mod _
  · simp [get_flag_set_a, get_flag_set_flag, flagBit]
  · rw [get_flag_set_a]
    simp [get_flag_set_flag, flagBit, and_255_eq_mod]
  · rw [get_flag_set_a]
    simp only [get_flag_set_flag, flagBit]
    norm_num
    rw [testBit7_mod_256]
    exact and_128_gt_one_iff _
  · rw [get_flag_set_a]
    simp only [get_flag_set_flag, flagBit]
    norm_num
    exact overflow_formula _ _ _

/-- C4 witness: the spec scenario A = $50, P = $00, ADC #$50 gives
A = $A0 with C = 0, V = 1, N = 1, Z = 0. -/
theorem adc_spec_witness :
    ∃ extra cpu2, opcode_adc adcCpu adcBus addr_immediate = some (extra, cpu2)
      ∧ cpu2.a = 0xA0
      ∧ get_flag cpu2 Flags.Carry = false
      ∧ get_flag cpu2 Flags.Zero = false
      ∧ get_flag cpu2 Flags.Negative = true
      ∧ get_flag cpu2 Flags.Overflow = true := by
  obtain ⟨extra, cpu2, h1, h2, h3, h4, h5, h6⟩ :=
    adc_spec adcCpu adcBus addr_immediate (AddrRes.new 0 false)
      { adcCpu with pc := 1 } 0x50 0 0xA0 rfl rfl (by decide) (by decide)
  refine ⟨extra, cpu2, h1, by simpa using h2, ?_, ?_, ?_, ?_⟩
  · cases hc : get_flag cpu2 Flags.Carry
    · rfl
    · exact absurd (h3.mp hc) (by norm_num)
  · cases hz : get_flag cpu2 Flags.Zero
    · rfl
    · exact absurd (h4.mp hz) (by norm_num)
  · exact h5.mpr (by decide)
  · exact h6.mpr (by decide)

/-! Claim C5: bus bounds — RAM has length 0xFFFF, address $FFFF panics. -/

/-- C5: for any bus whose RAM has the length 0xFFFF that `Bus::new`
allocates, every address up to $FFFE reads and writes successfully, while
address $FFFF hits the out-of-bounds (panic) branch of both operations;
and `Bus.new`'s RAM indeed has length 0xFFFF = 65535, one short of the
full 16-bit address space. -/
theorem bus_bounds (bus : Bus) (h : bus.ram.length = 0xFFFF) :
    (∀ addr, addr ≤ 0xFFFE → ∃ v, bus.read addr = some v)
      ∧ bus.read 0xFFFF = none
      ∧ (∀ addr b, addr ≤ 0xFFFE → ∃ bus', bus.write addr b = some bus')
      ∧ (∀ b, bus.write 0xFFFF b = none)
      ∧ Bus.new.ram.length = 0xFFFF := by
  refine ⟨?_, ?_, ?_, ?_, ?_⟩
  · intro addr ha
    exact ⟨_, List.getElem?_eq_getElem (by omega)⟩
  · exact List.getElem?_eq_none (by omega)
  · intro addr b ha
    rw [Bus.write, if_pos (by omega)]
    exact ⟨_, rfl⟩
  · intro b
    rw [Bus.write, if_neg (by omega)]
  · show (List.replicate 0xFFFF (0 : Nat)).length = 0xFFFF
    rw [List.length_replicate]

/-- C5 witness at `Bus.new` itself. -/
theorem bus_bounds_witness :
    Bus.new.read 0xFFFF = none ∧ ∃ v, Bus.new.read 0xFFFE = some v :=
  ⟨(bus_bounds Bus.new (List.length_replicate 0xFFFF 0)).2.1,
   (bus_bounds Bus.new (List.length_replicate 0xFFFF 0)).1 0xFFFE
     (by norm_num)⟩

end Nes
